import Mathlib

/-!
Verification development for the Air780E SMS UART server (Rust sources under
`src/server/src/`).  The serial codec (`serial_port.rs`), the store
(`database.rs`), the per-message pipeline and read loop (`connection.rs`) and
the process entry point (`main.rs`) are embedded shallowly as executable Lean
functions; side effects (serial reads/writes, SQLite calls, notifications)
are represented by explicit outcome parameters and event traces.
-/

namespace SerialPort

/-! ### Base64 (base64 crate, `general_purpose::STANDARD`)

Standard alphabet, canonical padding required, trailing bits must be zero,
whitespace is not ignored.  Bytes are modelled as `Nat` (values < 256). -/

def b64Val (c : Char) : Option Nat :=
  if 'A' ≤ c ∧ c ≤ 'Z' then some (c.toNat - 65)
  else if 'a' ≤ c ∧ c ≤ 'z' then some (c.toNat - 97 + 26)
  else if '0' ≤ c ∧ c ≤ '9' then some (c.toNat - 48 + 52)
  else if c = '+' then some 62
  else if c = '/' then some 63
  else none

/-- Decode one 4-character base64 group.  `last` says whether this is the final
group; `'='` padding is only legal there, and the unused low bits of the final
symbol must be zero (`decode_allow_trailing_bits = false`). -/
def b64Group (c1 c2 c3 c4 : Char) (last : Bool) : Option (List Nat) :=
  match b64Val c1, b64Val c2 with
  | some v1, some v2 =>
    if c3 = '=' then
      if last ∧ c4 = '=' ∧ v2 % 16 = 0 then some [v1 * 4 + v2 / 16] else none
    else
      match b64Val c3 with
      | some v3 =>
        if c4 = '=' then
          if last ∧ v3 % 4 = 0 then some [v1 * 4 + v2 / 16, v2 % 16 * 16 + v3 / 4] else none
        else
          match b64Val c4 with
          | some v4 => some [v1 * 4 + v2 / 16, v2 % 16 * 16 + v3 / 4, v3 % 4 * 64 + v4]
          | none => none
      | none => none
  | _, _ => none

/-- `general_purpose::STANDARD.decode`: the input length must be a multiple of
four (canonical padding), groups decode left to right. -/
def b64Decode : List Char → Option (List Nat)
  | [] => some []
  | c1 :: c2 :: c3 :: c4 :: rest =>
    match b64Group c1 c2 c3 c4 rest.isEmpty, b64Decode rest with
    | some g, some bs => some (g ++ bs)
    | _, _ => none
  | _ => none

/-! ### UTF-8 validation (`String::from_utf8`) -/

def isCont (b : Nat) : Bool := 128 ≤ b ∧ b < 192

/-- Strict UTF-8 decoding of a byte list: rejects overlong encodings,
surrogates and code points above U+10FFFF, exactly as `String::from_utf8`. -/
def utf8Decode : List Nat → Option (List Char)
  | [] => some []
  | b :: rest =>
    if b < 128 then
      match utf8Decode rest with
      | some cs => some (Char.ofNat b :: cs)
      | none => none
    else if b < 194 then none
    else if b < 224 then
      match rest with
      | b2 :: rest2 =>
        if isCont b2 then
          match utf8Decode rest2 with
          | some cs => some (Char.ofNat ((b - 192) * 64 + (b2 - 128)) :: cs)
          | none => none
        else none
      | [] => none
    else if b < 240 then
      match rest with
      | b2 :: b3 :: rest3 =>
        if isCont b2 ∧ isCont b3 then
          let cp := (b - 224) * 4096 + (b2 - 128) * 64 + (b3 - 128)
          if 2048 ≤ cp ∧ ¬ (55296 ≤ cp ∧ cp < 57344) then
            match utf8Decode rest3 with
            | some cs => some (Char.ofNat cp :: cs)
            | none => none
          else none
        else none
      | _ => none
    else if b < 245 then
      match rest with
      | b2 :: b3 :: b4 :: rest4 =>
        if isCont b2 ∧ isCont b3 ∧ isCont b4 then
          let cp := (b - 240) * 262144 + (b2 - 128) * 4096 + (b3 - 128) * 64 + (b4 - 128)
          if 65536 ≤ cp ∧ cp ≤ 1114111 then
            match utf8Decode rest4 with
            | some cs => some (Char.ofNat cp :: cs)
            | none => none
          else none
        else none
      | _ => none
    else none

/-! ### The frame regex `^(.+?):(.+?):(.+?)[\r\n]*$`

`parse_message` in `serial_port.rs` captures three lazy groups.  `.` matches
any character except `'\n'`; the groups are matched with leftmost-first
(lazy) semantics, exactly as the `regex` crate does for this pattern. -/

def isCRLFChar (c : Char) : Bool := c = '\r' ∨ c = '\n'

/-- Match `(.+?)[\r\n]*$` against a character list, returning the (shortest)
group: a non-empty prefix free of `'\n'` whose remainder is all CR/LF. -/
def lazyBodyTail : List Char → Option (List Char)
  | [] => none
  | c :: rest =>
    if c = '\n' then none
    else if rest.all isCRLFChar then some [c]
    else
      match lazyBodyTail rest with
      | some g => some (c :: g)
      | none => none

/-- Match `(.+?):(.+?)[\r\n]*$`: scan for the first `':'` (with a non-empty
group accumulated in `acc`, reversed) whose remainder matches
`(.+?)[\r\n]*$`; a `':'` that is not a viable boundary joins the group. -/
def lazyTwoTail (acc : List Char) : List Char → Option (List Char × List Char)
  | [] => none
  | c :: rest =>
    if c = '\n' then none
    else if c = ':' then
      if acc.isEmpty then lazyTwoTail [c] rest
      else
        match lazyBodyTail rest with
        | some g3 => some (acc.reverse, g3)
        | none => lazyTwoTail (c :: acc) rest
    else lazyTwoTail (c :: acc) rest

/-- Captures of `^(.+?):(.+?):(.+?)[\r\n]*$`: the first group is the shortest
non-empty `'\n'`-free prefix followed by a `':'` after which the rest of the
pattern matches. -/
def reFrameCaptures (acc : List Char) : List Char → Option (List Char × List Char × List Char)
  | [] => none
  | c :: rest =>
    if c = '\n' then none
    else if c = ':' then
      if acc.isEmpty then reFrameCaptures [c] rest
      else
        match lazyTwoTail [] rest with
        | some (g2, g3) => some (acc.reverse, g2, g3)
        | none => reFrameCaptures (c :: acc) rest
    else reFrameCaptures (c :: acc) rest

/-! ### JSON (serde_json)

`serde_json::Value`, its parser, and deserialization into the two payload
structs.  Integer literals that fit the crate's `PosInt`/`NegInt` are kept as
`Json.int`; every other number (fraction, exponent, out-of-range, `-0`)
becomes an `f64` in the source and is carried here as `Json.floatNum` with its
raw lexeme (the numeric value of such floats is never inspected by the
program under verification). -/

inductive Json where
  | null
  | bool (b : Bool)
  | int (n : Int)
  | floatNum (raw : List Char)
  | str (s : List Char)
  | arr (elems : List Json)
  | obj (fields : List (List Char × Json))

def isJsonWs (c : Char) : Bool := c = ' ' ∨ c = '\t' ∨ c = '\n' ∨ c = '\r'

def skipWs : List Char → List Char
  | [] => []
  | c :: rest => if isJsonWs c then skipWs rest else c :: rest

def hexVal (c : Char) : Option Nat :=
  if '0' ≤ c ∧ c ≤ '9' then some (c.toNat - 48)
  else if 'a' ≤ c ∧ c ≤ 'f' then some (c.toNat - 87)
  else if 'A' ≤ c ∧ c ≤ 'F' then some (c.toNat - 55)
  else none

def parseHex4 : List Char → Option (Nat × List Char)
  | c1 :: c2 :: c3 :: c4 :: rest =>
    match hexVal c1, hexVal c2, hexVal c3, hexVal c4 with
    | some a, some b, some c, some d => some (a * 4096 + b * 256 + c * 16 + d, rest)
    | _, _, _, _ => none
  | _ => none

/-- JSON string body after the opening quote: returns the decoded characters
and the input after the closing quote.  Raw control characters are rejected,
escapes follow serde_json (including surrogate pairs; lone surrogates are
errors). -/
def parseStringBody (fuel : Nat) (l : List Char) : Option (List Char × List Char) :=
  match fuel with
  | 0 => none
  | fuel + 1 =>
    match l with
    | [] => none
    | '"' :: rest => some ([], rest)
    | '\\' :: e :: rest =>
      if e = '"' then (parseStringBody fuel rest).map (fun p => ('"' :: p.1, p.2))
      else if e = '\\' then (parseStringBody fuel rest).map (fun p => ('\\' :: p.1, p.2))
      else if e = '/' then (parseStringBody fuel rest).map (fun p => ('/' :: p.1, p.2))
      else if e = 'b' then (parseStringBody fuel rest).map (fun p => (Char.ofNat 8 :: p.1, p.2))
      else if e = 'f' then (parseStringBody fuel rest).map (fun p => (Char.ofNat 12 :: p.1, p.2))
      else if e = 'n' then (parseStringBody fuel rest).map (fun p => ('\n' :: p.1, p.2))
      else if e = 'r' then (parseStringBody fuel rest).map (fun p => ('\r' :: p.1, p.2))
      else if e = 't' then (parseStringBody fuel rest).map (fun p => ('\t' :: p.1, p.2))
      else if e = 'u' then
        match parseHex4 rest with
        | some (n, r2) =>
          if 55296 ≤ n ∧ n < 56320 then
            match r2 with
            | '\\' :: 'u' :: r3 =>
              match parseHex4 r3 with
              | some (n2, r4) =>
                if 56320 ≤ n2 ∧ n2 < 57344 then
                  (parseStringBody fuel r4).map
                    (fun p => (Char.ofNat (65536 + (n - 55296) * 1024 + (n2 - 56320)) :: p.1, p.2))
                else none
              | none => none
            | _ => none
          else if 56320 ≤ n ∧ n < 57344 then none
          else (parseStringBody fuel r2).map (fun p => (Char.ofNat n :: p.1, p.2))
        | none => none
      else none
    | c :: rest =>
      if c.toNat < 32 then none
      else (parseStringBody fuel rest).map (fun p => (c :: p.1, p.2))

def digitVal (c : Char) : Option Nat :=
  if '0' ≤ c ∧ c ≤ '9' then some (c.toNat - 48) else none

def takeDigits : List Char → (List Char × List Char)
  | [] => ([], [])
  | c :: rest =>
    if ('0' ≤ c ∧ c ≤ '9' : Prop) then
      let (ds, r) := takeDigits rest
      (c :: ds, r)
    else ([], c :: rest)

def digitsToNat (ds : List Char) : Nat :=
  ds.foldl (fun acc c => acc * 10 + (c.toNat - 48)) 0

/-- Optional fraction part: `none` means a malformed `.`; `some ([], l)` means
no fraction present. -/
def parseFracPart : List Char → Option (List Char × List Char)
  | '.' :: rest =>
    let (ds, r) := takeDigits rest
    if ds.isEmpty then none else some (ds, r)
  | l => some (([] : List Char), l)

/-- Optional exponent part, returned as its raw lexeme. -/
def parseExpPart : List Char → Option (List Char × List Char)
  | [] => some (([] : List Char), [])
  | c :: rest =>
    if c = 'e' ∨ c = 'E' then
      match rest with
      | s :: rest2 =>
        if s = '+' ∨ s = '-' then
          let (ds, r) := takeDigits rest2
          if ds.isEmpty then none else some (c :: s :: ds, r)
        else
          let (ds, r) := takeDigits rest
          if ds.isEmpty then none else some (c :: ds, r)
      | [] => none
    else some (([] : List Char), c :: rest)

/-- JSON number starting at `l` (first character `'-'` or a digit).
Classification follows serde_json: in-range integer literals become
`Json.int`; `-0`, fractions, exponents and out-of-range literals become
`f64` (`Json.floatNum`). -/
def parseNumber (l : List Char) : Option (Json × List Char) :=
  let np : Bool × List Char := match l with | '-' :: r => (true, r) | _ => (false, l)
  let neg := np.1
  match np.2 with
  | [] => none
  | c :: rest0 =>
    if (digitVal c).isNone then none
    else
      let ip : List Char × List Char := if c = '0' then ([c], rest0) else takeDigits (c :: rest0)
      if c = '0' && (match rest0 with | d :: _ => (digitVal d).isSome | [] => false) then none
      else
        match parseFracPart ip.2 with
        | none => none
        | some (fds, r2) =>
          match parseExpPart r2 with
          | none => none
          | some (eds, r3) =>
            if fds.isEmpty ∧ eds.isEmpty then
              let v := digitsToNat ip.1
              if neg then
                if v = 0 then some (Json.floatNum ('-' :: ip.1), r3)
                else if (v : Int) ≤ 2 ^ 63 then some (Json.int (-(v : Int)), r3)
                else some (Json.floatNum ('-' :: ip.1), r3)
              else
                if (v : Int) < 2 ^ 64 then some (Json.int (v : Int), r3)
                else some (Json.floatNum ip.1, r3)
            else
              some (Json.floatNum ((if neg then ['-'] else []) ++ ip.1 ++
                (if fds.isEmpty then [] else '.' :: fds) ++ eds), r3)

mutual

/-- One JSON value (after optional leading whitespace) and the rest of the
input.  The fuel is decremented on every recursive call; callers supply
`length + 1`, which suffices because each nested call consumes at least one
character first. -/
def parseValue (fuel : Nat) (l : List Char) : Option (Json × List Char) :=
  match fuel with
  | 0 => none
  | fuel + 1 =>
    match skipWs l with
    | [] => none
    | c :: rest =>
      if c = 'n' then
        match rest with | 'u' :: 'l' :: 'l' :: r => some (Json.null, r) | _ => none
      else if c = 't' then
        match rest with | 'r' :: 'u' :: 'e' :: r => some (Json.bool true, r) | _ => none
      else if c = 'f' then
        match rest with | 'a' :: 'l' :: 's' :: 'e' :: r => some (Json.bool false, r) | _ => none
      else if c = '"' then
        (parseStringBody (rest.length + 1) rest).map (fun p => (Json.str p.1, p.2))
      else if c = '-' ∨ (digitVal c).isSome then parseNumber (c :: rest)
      else if c = '[' then
        match skipWs rest with
        | ']' :: r => some (Json.arr [], r)
        | l2 =>
          match parseValue fuel l2 with
          | some (v, r) => parseArrayMore fuel [v] r
          | none => none
      else if c = Char.ofNat 123 then
        match skipWs rest with
        | c2 :: r =>
          if c2 = Char.ofNat 125 then some (Json.obj [], r)
          else
            match parseObjEntry fuel (c2 :: r) with
            | some (kv, r2) => parseObjMore fuel [kv] r2
            | none => none
        | [] => none
      else none

/-- Array continuation after at least one element. -/
def parseArrayMore (fuel : Nat) (accum : List Json) (l : List Char) : Option (Json × List Char) :=
  match fuel with
  | 0 => none
  | fuel + 1 =>
    match skipWs l with
    | ',' :: r =>
      match parseValue fuel r with
      | some (v, r2) => parseArrayMore fuel (accum ++ [v]) r2
      | none => none
    | ']' :: r => some (Json.arr accum, r)
    | _ => none

/-- One `"key" : value` object entry. -/
def parseObjEntry (fuel : Nat) (l : List Char) : Option ((List Char × Json) × List Char) :=
  match fuel with
  | 0 => none
  | fuel + 1 =>
    match skipWs l with
    | '"' :: r =>
      match parseStringBody (r.length + 1) r with
      | some (k, r2) =>
        match skipWs r2 with
        | ':' :: r3 =>
          match parseValue fuel r3 with
          | some (v, r4) => some ((k, v), r4)
          | none => none
        | _ => none
      | none => none
    | _ => none

/-- Object continuation after at least one entry. -/
def parseObjMore (fuel : Nat) (accum : List (List Char × Json)) (l : List Char) :
    Option (Json × List Char) :=
  match fuel with
  | 0 => none
  | fuel + 1 =>
    match skipWs l with
    | ',' :: r =>
      match parseObjEntry fuel r with
      | some (kv, r2) => parseObjMore fuel (accum ++ [kv]) r2
      | none => none
    | c :: r => if c = Char.ofNat 125 then some (Json.obj accum, r) else none
    | [] => none

end

/-- `serde_json::from_str::<Value>`: one document, then only whitespace. -/
def jsonFromStr (s : List Char) : Option Json :=
  match parseValue (s.length + 1) s with
  | some (v, rest) => if (skipWs rest).isEmpty then some v else none
  | none => none

/-! ### Payload structs (`serial_port.rs`) -/

structure SmsPayload where
  id : List Char
  sender : List Char
  content : List Char
  received_at : Int
  metas : Option Json

structure DeviceInfoPayload where
  imei : List Char
  number : List Char
  status : Int
  rssi : Int
  iccid : List Char
  timestamp : Int

/-- Deserializing a JSON value into `i64` (accepts only in-range integer
literals, never floats or strings). -/
def asI64 : Json → Option Int
  | Json.int n => if -(2 : Int) ^ 63 ≤ n ∧ n ≤ 2 ^ 63 - 1 then some n else none
  | _ => none

/-- Deserializing a JSON value into `i32`. -/
def asI32 : Json → Option Int
  | Json.int n => if -(2 : Int) ^ 31 ≤ n ∧ n ≤ 2 ^ 31 - 1 then some n else none
  | _ => none

def asStr : Json → Option (List Char)
  | Json.str s => some s
  | _ => none

/-- serde field loop for `SmsPayload`: duplicate known fields are errors,
unknown fields are ignored, `metas : Option<Value>` maps JSON `null` to
`None` and defaults to `None` when absent. -/
def smsFromFields : List (List Char × Json) → Option (List Char) → Option (List Char) →
    Option (List Char) → Option Int → Option (Option Json) → Option SmsPayload
  | [], i, s, c, r, m =>
    match i, s, c, r with
    | some iv, some sv, some cv, some rv => some ⟨iv, sv, cv, rv, m.getD none⟩
    | _, _, _, _ => none
  | (k, v) :: rest, i, s, c, r, m =>
    if k = ("id").data then
      if i.isSome then none
      else match asStr v with
        | some x => smsFromFields rest (some x) s c r m
        | none => none
    else if k = ("sender").data then
      if s.isSome then none
      else match asStr v with
        | some x => smsFromFields rest i (some x) c r m
        | none => none
    else if k = ("content").data then
      if c.isSome then none
      else match asStr v with
        | some x => smsFromFields rest i s (some x) r m
        | none => none
    else if k = ("received_at").data then
      if r.isSome then none
      else match asI64 v with
        | some x => smsFromFields rest i s c (some x) m
        | none => none
    else if k = ("metas").data then
      if m.isSome then none
      else smsFromFields rest i s c r (some (match v with | Json.null => none | w => some w))
    else smsFromFields rest i s c r m

/-- `serde_json::from_str::<SmsPayload>` applied to an already-parsed value. -/
def parseSmsPayload : Json → Option SmsPayload
  | Json.obj fields => smsFromFields fields none none none none none
  | _ => none

structure DIAcc where
  imei : Option (List Char)
  number : Option (List Char)
  status : Option Int
  rssi : Option Int
  iccid : Option (List Char)
  timestamp : Option Int

/-- serde field loop for `DeviceInfoPayload`. -/
def diFromFields : List (List Char × Json) → DIAcc → Option DeviceInfoPayload
  | [], acc =>
    match acc.imei, acc.number, acc.status, acc.rssi, acc.iccid, acc.timestamp with
    | some a, some b, some c, some d, some e, some f => some ⟨a, b, c, d, e, f⟩
    | _, _, _, _, _, _ => none
  | (k, v) :: rest, acc =>
    if k = ("imei").data then
      if acc.imei.isSome then none
      else match asStr v with
        | some x => diFromFields rest { acc with imei := some x }
        | none => none
    else if k = ("number").data then
      if acc.number.isSome then none
      else match asStr v with
        | some x => diFromFields rest { acc with number := some x }
        | none => none
    else if k = ("status").data then
      if acc.status.isSome then none
      else match asI32 v with
        | some x => diFromFields rest { acc with status := some x }
        | none => none
    else if k = ("rssi").data then
      if acc.rssi.isSome then none
      else match asI32 v with
        | some x => diFromFields rest { acc with rssi := some x }
        | none => none
    else if k = ("iccid").data then
      if acc.iccid.isSome then none
      else match asStr v with
        | some x => diFromFields rest { acc with iccid := some x }
        | none => none
    else if k = ("timestamp").data then
      if acc.timestamp.isSome then none
      else match asI64 v with
        | some x => diFromFields rest { acc with timestamp := some x }
        | none => none
    else diFromFields rest acc

/-- `serde_json::from_str::<DeviceInfoPayload>` applied to a parsed value. -/
def parseDeviceInfoPayload : Json → Option DeviceInfoPayload
  | Json.obj fields => diFromFields fields ⟨none, none, none, none, none, none⟩
  | _ => none

/-! ### `parse_message` -/

inductive MessageType where
  | DeviceInfo (payload : DeviceInfoPayload)
  | SmsReceived (payload : SmsPayload)
  | SystemInit (v : Json)
  | HeartBeat (v : Json)
  | Unknown (tag : List Char)

structure ParsedMessage where
  id : List Char
  message_type : MessageType

/-- The four recognized `TYPE` tokens of the wire protocol. -/
def recognizedType (t : List Char) : Bool :=
  t = ("DEVICE_INFO").data ∨ t = ("SMS_RECEIVED").data ∨
  t = ("SYSTEM_INIT").data ∨ t = ("HEART_BEAT").data

/-- The `match msg_type` arms of `parse_message`: recognized types must parse
against their JSON shape; any other token yields `Unknown` without touching
the JSON. -/
def decodeTyped (msg_type : List Char) (json_str : List Char) : Option MessageType :=
  if msg_type = ("DEVICE_INFO").data then
    ((jsonFromStr json_str).bind parseDeviceInfoPayload).map MessageType.DeviceInfo
  else if msg_type = ("SMS_RECEIVED").data then
    ((jsonFromStr json_str).bind parseSmsPayload).map MessageType.SmsReceived
  else if msg_type = ("SYSTEM_INIT").data then
    (jsonFromStr json_str).map MessageType.SystemInit
  else if msg_type = ("HEART_BEAT").data then
    (jsonFromStr json_str).map MessageType.HeartBeat
  else some (MessageType.Unknown msg_type)

/-- Base64 decode followed by `String::from_utf8` (lines 61-62 of
`serial_port.rs`). -/
def payloadUtf8 (base64_data : List Char) : Option (List Char) :=
  (b64Decode base64_data).bind utf8Decode

/-- `parse_message` (`serial_port.rs` lines 50-92): regex capture, base64
decode, UTF-8 check, then the type dispatch. -/
def parse_message (line : List Char) : Option ParsedMessage := do
  let (id, msg_type, base64_data) ← reFrameCaptures [] line
  let json_str ← payloadUtf8 base64_data
  let message_type ← decodeTyped msg_type json_str
  pure ⟨id, message_type⟩

/-- The ACK frame bytes handed to the transport by `send_ack`. -/
def ack_frame (uuid : List Char) : List Char :=
  ("ACK:").data ++ uuid ++ ("\r\n").data

/-- The handshake command `CMD:GET_DEVICE_INFO\r\n` (`INIT_CMD`). -/
def INIT_CMD : List Char := ("CMD:GET_DEVICE_INFO\r\n").data

end SerialPort

namespace SerialPort

/-! ### JSON serialization (`serde_json::to_string`)

Used by `process_message` to stringify `payload.metas` before storing it.
Strings are escaped as serde_json does; `Json.floatNum` is printed from its
raw lexeme (the source re-prints the parsed `f64`; no claim inspects such a
value). -/

def natToDigits (fuel n : Nat) : List Char :=
  match fuel with
  | 0 => []
  | fuel + 1 =>
    if n < 10 then [Char.ofNat (48 + n)]
    else natToDigits fuel (n / 10) ++ [Char.ofNat (48 + n % 10)]

def natToChars (n : Nat) : List Char := natToDigits (n + 1) n

def intToChars (n : Int) : List Char :=
  if n < 0 then '-' :: natToChars n.natAbs else natToChars n.natAbs

def hexDigit (n : Nat) : Char :=
  if n < 10 then Char.ofNat (48 + n) else Char.ofNat (87 + n)

/-- serde_json string escaping: `"` and `\` get a backslash, control
characters use the short escapes or `\u00xx`. -/
def escapeChar (c : Char) : List Char :=
  if c = '"' then ['\\', '"']
  else if c = '\\' then ['\\', '\\']
  else if c = Char.ofNat 8 then ['\\', 'b']
  else if c = '\t' then ['\\', 't']
  else if c = '\n' then ['\\', 'n']
  else if c = Char.ofNat 12 then ['\\', 'f']
  else if c = '\r' then ['\\', 'r']
  else if c.toNat < 32 then
    ['\\', 'u', '0', '0', hexDigit (c.toNat / 16), hexDigit (c.toNat % 16)]
  else [c]

def escapeString (s : List Char) : List Char :=
  '"' :: s.foldr (fun c acc => escapeChar c ++ acc) ['"']

mutual

def jsonToChars : Json → List Char
  | Json.null => ("null").data
  | Json.bool true => ("true").data
  | Json.bool false => ("false").data
  | Json.int n => intToChars n
  | Json.floatNum raw => raw
  | Json.str s => escapeString s
  | Json.arr elems => '[' :: jsonListToChars elems ++ [']']
  | Json.obj fields => Char.ofNat 123 :: jsonFieldsToChars fields ++ [Char.ofNat 125]

def jsonListToChars : List Json → List Char
  | [] => []
  | [v] => jsonToChars v
  | v :: rest => jsonToChars v ++ ',' :: jsonListToChars rest

def jsonFieldsToChars : List (List Char × Json) → List Char
  | [] => []
  | [(k, v)] => escapeString k ++ ':' :: jsonToChars v
  | (k, v) :: rest => escapeString k ++ ':' :: jsonToChars v ++ ',' :: jsonFieldsToChars rest

end

/-- `serde_json::to_string(&payload.metas)` where `metas : Option<Value>`:
`None` serializes as `null`. -/
def metasToChars : Option Json → List Char
  | none => ("null").data
  | some v => jsonToChars v

end SerialPort

namespace Database

/-! ### The store (`database.rs`)

The `sms_messages` table is modelled as a list of rows in insertion order.
SQLite side effects are made explicit: each operation returns a success flag
(`false` = the SQL statement failed) and the new table state.  Host clock
reads (`created_at`, `ack_sent_at`) are passed in. -/

structure SmsMessage where
  id : List Char
  sender : List Char
  content : List Char
  received_at : Int
  metas : List Char
deriving DecidableEq

structure SmsRow where
  id : List Char
  sender : List Char
  content : List Char
  received_at : Int
  metas : List Char
  acknowledged : Bool
  ack_sent_at : Option Int
  created_at : Int
deriving DecidableEq

/-- `insert_sms`: a plain `INSERT` into a table whose `id` is the PRIMARY
KEY.  A row with the same `id` makes SQLite fail with a UNIQUE-constraint
error, which `insert_sms` surfaces as `Err`; the table is unchanged.  A fresh
`id` appends a row with `acknowledged = 0` and `ack_sent_at` NULL. -/
def insert_sms (table : List SmsRow) (msg : SmsMessage) (created_at : Int) :
    Bool × List SmsRow :=
  if table.any (fun r => r.id = msg.id) then (false, table)
  else (true, table ++ [⟨msg.id, msg.sender, msg.content, msg.received_at, msg.metas,
    false, none, created_at⟩])

/-- `mark_acknowledged`: an `UPDATE ... WHERE id = ?`.  It returns `Ok` even
when no row matches (that case is only logged). -/
def mark_acknowledged (table : List SmsRow) (id : List Char) (ack_time : Int) :
    Bool × List SmsRow :=
  (true, table.map (fun r =>
    if r.id = id then { r with acknowledged := true, ack_sent_at := some ack_time } else r))

/-- `get_unacknowledged`: rows with `acknowledged = 0`. -/
def get_unacknowledged (table : List SmsRow) : List SmsRow :=
  table.filter (fun r => !r.acknowledged)

def count_total (table : List SmsRow) : Int := table.length

def count_unacknowledged (table : List SmsRow) : Int := (get_unacknowledged table).length

end Database

namespace Connection

open SerialPort Database

/-! ### The connection manager (`connection.rs`)

`process_message` and `handle_messages` perform I/O and database calls; the
embedding records each call as an event, in program order, and takes the
outcome of each fallible call from an explicit `SmsOutcomes` oracle. -/

inductive ConnectionState where
  | Initializing
  | Validating
  | Connected
  | Reconnecting (attempts : Nat)
  | Failed
deriving DecidableEq

/-- One externally visible call of the SMS pipeline.  `insert` is the
`db.insert_sms` call, `notify` the `notifier.send` call, `ackWrite` the
`send_ack` transport write, `markAck` the `db.mark_acknowledged` call.  An
event records that the call was made (its outcome comes from the oracle). -/
inductive Event where
  | insert (msg : SmsMessage)
  | notify (title : List Char) (body : List Char)
  | ackWrite (id : List Char)
  | markAck (id : List Char)
deriving DecidableEq

/-- Outcomes of the four fallible calls a single SMS frame can make. -/
structure SmsOutcomes where
  insertOk : Bool
  notifyOk : Bool
  ackOk : Bool
  markOk : Bool
deriving DecidableEq

/-- The `SmsMessage` built at lines 215-221 of `connection.rs`: note the row
id is `payload.id` (the id from inside the JSON), not the frame id. -/
def mkSmsMessage (payload : SmsPayload) : SmsMessage :=
  ⟨payload.id, payload.sender, payload.content, payload.received_at,
    metasToChars payload.metas⟩

/-- `process_message` (lines 205-266): for an SMS frame it inserts (aborting
on failure), notifies (failure only logged), writes the ACK (aborting on
failure), and marks acknowledged (failure aborts, after the fact).  All other
kinds only log.  Returns the event trace and `true` for `Ok`. -/
def process_message (msg : ParsedMessage) (o : SmsOutcomes) : List Event × Bool :=
  match msg.message_type with
  | MessageType.SmsReceived payload =>
    let sms_msg := mkSmsMessage payload
    let title := ("SMS from ").data ++ payload.sender
    if !o.insertOk then ([Event.insert sms_msg], false)
    else if !o.ackOk then
      ([Event.insert sms_msg, Event.notify title payload.content, Event.ackWrite msg.id], false)
    else
      ([Event.insert sms_msg, Event.notify title payload.content, Event.ackWrite msg.id,
        Event.markAck msg.id], o.markOk)
  | _ => ([], true)

/-- One iteration of the read loop (lines 161-202): what `read_line` produced
this time around.  A `data` event carries the outcome oracle for the frame's
processing. -/
inductive ReadEvent where
  | eof
  | data (line : List Char) (o : SmsOutcomes)
  | readErr
  | timeout

/-- Why `handle_messages` returned.  `none` below means the loop is still
running. -/
inductive LoopExit where
  | connectionClosed
  | readError
deriving DecidableEq

/-- One arm of the `match read_result`: EOF and read errors bail out of
`handle_messages`; a parse failure or a `process_message` error is logged and
the loop continues; a timeout only logs a liveness note. -/
def handle_step (ev : ReadEvent) : Option LoopExit × List Event :=
  match ev with
  | ReadEvent.eof => (some LoopExit.connectionClosed, [])
  | ReadEvent.readErr => (some LoopExit.readError, [])
  | ReadEvent.timeout => (none, [])
  | ReadEvent.data line o =>
    match parse_message line with
    | some msg => (none, (process_message msg o).1)
    | none => (none, [])

/-- The read loop over a finite prefix of read results: stops at the first
step that bails out, concatenating the event traces. -/
def run_loop : List ReadEvent → Option LoopExit × List Event
  | [] => (none, [])
  | ev :: rest =>
    match handle_step ev with
    | (some ex, tr) => (some ex, tr)
    | (none, tr) =>
      let (x, tr2) := run_loop rest
      (x, tr ++ tr2)

/-- `handle_messages` (lines 146-203): first the handshake command write,
whose failure is only logged (the loop is entered either way), then the read
loop.  The returned trace records the loop's events. -/
def handle_messages (handshakeOk : Bool) (evs : List ReadEvent) : Option LoopExit × List Event :=
  let _ := handshakeOk
  run_loop evs

/-- `maintain_loop` (lines 105-144) sets `Reconnecting {attempts: 0}` exactly
when `handle_messages` returned an error; otherwise the state keeps its
current value. -/
def state_after_handle (s : ConnectionState) (exitRes : Option LoopExit) : ConnectionState :=
  match exitRes with
  | some _ => ConnectionState.Reconnecting 0
  | none => s

/-- `establish` (lines 37-103), given the configured port name, the result of
auto-detection (if used) and the outcome of `check_port` on each validation
attempt (`check` has length `max_retry_count`): returns the validated port
name or fails after exhausting the attempts. -/
def establish (port_name : List Char) (auto : Bool) (autoResult : Option (List Char))
    (check : List Bool) : Option (List Char) :=
  match (if auto then autoResult else some port_name) with
  | none => none
  | some name => if check.any id then some name else none

end Connection

namespace ServerMain

/-! ### Process exit (`main.rs`) -/

/-- How the `tokio::select!` in `main` ended: either `maintain_loop` returned
(it only ever returns `Err`, from `establish` or from opening the port), or
the Ctrl+C branch fired. -/
inductive RunEnd where
  | loopReturned (ok : Bool)
  | shutdownSignal
deriving DecidableEq

/-- The process exit code as a function of the three phases of `main`
(lines 24-105): configuration load, database initialization, and the final
select.  After the select, `main` only logs the loop's result and falls off
the end, so the process exits 0 no matter how the loop ended. -/
def main_exit_code (configOk dbOk : Bool) (e : RunEnd) : Nat :=
  if !configOk then 1
  else if !dbOk then 1
  else
    match e with
    | RunEnd.loopReturned _ => 0
    | RunEnd.shutdownSignal => 0

end ServerMain

namespace SerialPort

/-! ### The probe (`check_port`, `serial_port.rs` lines 167-208)

The handshake regex `^(.+):DEVICE_INFO:([a-zA-Z0-9+/=]+)\s*$` is modelled
both as an executable scanner (`diMatch`, used inside `check_port`) and as a
declarative decomposition (`DeviceInfoRegexMatches`); the two are proved
equivalent. -/

def isB64Char (c : Char) : Bool :=
  ('a' ≤ c ∧ c ≤ 'z') ∨ ('A' ≤ c ∧ c ≤ 'Z') ∨ ('0' ≤ c ∧ c ≤ '9') ∨
  c = '+' ∨ c = '/' ∨ c = '='

/-- `\s` of the regex crate: Unicode `White_Space`. -/
def isWsChar (c : Char) : Bool :=
  c.toNat = 9 ∨ c.toNat = 10 ∨ c.toNat = 11 ∨ c.toNat = 12 ∨ c.toNat = 13 ∨
  c.toNat = 32 ∨ c.toNat = 133 ∨ c.toNat = 160 ∨ c.toNat = 5760 ∨
  (8192 ≤ c.toNat ∧ c.toNat ≤ 8202) ∨ c.toNat = 8232 ∨ c.toNat = 8233 ∨
  c.toNat = 8239 ∨ c.toNat = 8287 ∨ c.toNat = 12288

/-- Match `[a-zA-Z0-9+/=]*\s*$`. -/
def b64StarWs : List Char → Bool
  | [] => true
  | c :: rest => (isB64Char c && b64StarWs rest) || (isWsChar c && rest.all isWsChar)

/-- Match `([a-zA-Z0-9+/=]+)\s*$`. -/
def b64PlusWs : List Char → Bool
  | [] => false
  | c :: rest => isB64Char c && b64StarWs rest

def deviceInfoLit : List Char := (":DEVICE_INFO:").data

/-- Scan for a split of group 1 (`(.+)`, at least one character already
consumed by `diMatch`): either the literal `:DEVICE_INFO:` starts here and
the rest matches `([a-zA-Z0-9+/=]+)\s*$`, or the current character (not
`'\n'`) joins group 1. -/
def diMatchAux : List Char → Bool
  | [] => false
  | c :: rest =>
    (decide ((c :: rest).take 13 = deviceInfoLit) && b64PlusWs ((c :: rest).drop 13))
    || (decide (c ≠ '\n') && diMatchAux rest)

/-- Whether `^(.+):DEVICE_INFO:([a-zA-Z0-9+/=]+)\s*$` matches the line. -/
def diMatch : List Char → Bool
  | [] => false
  | c :: rest => decide (c ≠ '\n') && diMatchAux rest

/-- Declarative reading of the same regex: some decomposition into a
non-empty `'\n'`-free group 1, the literal, a non-empty base64 group 2 and
trailing whitespace. -/
def DeviceInfoRegexMatches (line : List Char) : Prop :=
  ∃ a b w, line = a ++ deviceInfoLit ++ b ++ w ∧ a ≠ [] ∧ (∀ c ∈ a, c ≠ '\n') ∧
    b ≠ [] ∧ (∀ c ∈ b, isB64Char c) ∧ (∀ c ∈ w, isWsChar c)

/-- What `check_port` read back: `none` models a timeout or read error,
`some line` a successful `read_line` (so `bytes_read = line.length`). -/
def check_port (port_name : List Char) (openOk writeOk : Bool)
    (readLine : Option (List Char)) : Option (List Char) :=
  if !openOk then none
  else if !writeOk then none
  else
    match readLine with
    | none => none
    | some line =>
      if line.length > 0 && diMatch line then some port_name else none

end SerialPort

/-! ### Concrete frames used to settle the claims -/

namespace Frames

/-- A frame whose outer id `out1` differs from the JSON payload id `in1`;
the base64 is `{"id":"in1","sender":"s","content":"c","received_at":1}`. -/
def divergentLine : List Char :=
  ("out1:SMS_RECEIVED:eyJpZCI6ImluMSIsInNlbmRlciI6InMiLCJjb250ZW50IjoiYyIsInJlY2VpdmVkX2F0IjoxfQ==").data

/-- The parsed form of `divergentLine`. -/
def divergentMsg : SerialPort.ParsedMessage :=
  ⟨("out1").data, SerialPort.MessageType.SmsReceived
    ⟨("in1").data, ("s").data, ("c").data, 1, none⟩⟩

/-- A well-formed SMS frame with agreeing ids; the base64 is
`{"id":"m1","sender":"s","content":"h","received_at":1}`. -/
def smsLine : List Char :=
  ("m1:SMS_RECEIVED:eyJpZCI6Im0xIiwic2VuZGVyIjoicyIsImNvbnRlbnQiOiJoIiwicmVjZWl2ZWRfYXQiOjF9").data

/-- The parsed form of `smsLine`. -/
def smsMsg : SerialPort.ParsedMessage :=
  ⟨("m1").data, SerialPort.MessageType.SmsReceived
    ⟨("m1").data, ("s").data, ("h").data, 1, none⟩⟩

/-- The database row produced by inserting `smsLine`'s record at time 5. -/
def rowM1 : Database.SmsRow :=
  ⟨("m1").data, ("s").data, ("h").data, 1, ("null").data, false, none, 5⟩

end Frames

section Claims

open SerialPort Database Connection ServerMain Frames

/-- C1: on the frame `divergentLine`, whose outer id `out1` differs from the
JSON payload id `in1`, the record handed to `insert_sms` carries the inner
id `in1`, while the ACK write and `mark_acknowledged` use the outer id
`out1`; consequently `mark_acknowledged "out1"` leaves the stored row
unacknowledged.  This contradicts the claim (and the spec) that the outer
frame id is the id used for the stored row. -/
theorem C1_inner_id_stored_outer_id_acked :
    parse_message divergentLine = some divergentMsg ∧
    (process_message divergentMsg ⟨true, true, true, true⟩).1 =
      [Event.insert ⟨("in1").data, ("s").data, ("c").data, 1, ("null").data⟩,
       Event.notify (("SMS from s").data) (("c").data),
       Event.ackWrite (("out1").data),
       Event.markAck (("out1").data)] ∧
    (mark_acknowledged (insert_sms []
        ⟨("in1").data, ("s").data, ("c").data, 1, ("null").data⟩ 5).2 (("out1").data) 6).2 =
      [⟨("in1").data, ("s").data, ("c").data, 1, ("null").data, false, none, 5⟩] :=
  ⟨rfl, rfl, rfl⟩

/-- C2 counterexample: when the ACK write fails on `smsLine`
(`ackOk = false`), `handle_step` returns `none` — the read loop keeps
running and the connection state stays `Connected` — refuting the claim
that the connection transitions to reconnection. -/
theorem C2_cex_ack_failure_does_not_reconnect :
    handle_step (ReadEvent.data smsLine ⟨true, true, false, true⟩) =
      (none, [Event.insert ⟨("m1").data, ("s").data, ("h").data, 1, ("null").data⟩,
              Event.notify (("SMS from s").data) (("h").data),
              Event.ackWrite (("m1").data)]) ∧
    state_after_handle ConnectionState.Connected
      (handle_step (ReadEvent.data smsLine ⟨true, true, false, true⟩)).1 =
      ConnectionState.Connected :=
  ⟨rfl, rfl⟩

/-- C2 (amended): when the ACK write fails for an SMS frame,
`mark_acknowledged` is skipped for that frame, but the error is only logged
by the read loop: the loop continues (no exit) and the connection state is
unchanged — there is no transition to reconnection. -/
theorem C2_ack_failure_skips_markAck_loop_continues :
    ∀ (line : List Char) (msg : ParsedMessage) (payload : SmsPayload) (o : SmsOutcomes),
      parse_message line = some msg →
      msg.message_type = MessageType.SmsReceived payload →
      o.insertOk = true → o.ackOk = false →
      handle_step (ReadEvent.data line o) =
        (none, [Event.insert (mkSmsMessage payload),
                Event.notify ((("SMS from ").data) ++ payload.sender) payload.content,
                Event.ackWrite msg.id]) ∧
      (∀ i, Event.markAck i ∉ (handle_step (ReadEvent.data line o)).2) ∧
      state_after_handle ConnectionState.Connected (handle_step (ReadEvent.data line o)).1 =
        ConnectionState.Connected := by
  intro line msg payload o hp hm hi ha
  have h1 : handle_step (ReadEvent.data line o) =
      (none, [Event.insert (mkSmsMessage payload),
              Event.notify ((("SMS from ").data) ++ payload.sender) payload.content,
              Event.ackWrite msg.id]) := by
    simp [handle_step, hp, process_message, hm, hi, ha]
  refine ⟨h1, ?_, ?_⟩
  · intro i
    rw [h1]
    simp
  · rw [h1]
    rfl

/-- C2 witness: the amended statement at the concrete frame `smsLine` with a
failing ACK write. -/
theorem C2_ack_failure_witness :
    Event.markAck (("m1").data) ∉
      (handle_step (ReadEvent.data smsLine ⟨true, true, false, true⟩)).2 ∧
    state_after_handle ConnectionState.Connected
      (handle_step (ReadEvent.data smsLine ⟨true, true, false, true⟩)).1 =
      ConnectionState.Connected :=
  ⟨(C2_ack_failure_skips_markAck_loop_continues smsLine smsMsg
      ⟨("m1").data, ("s").data, ("h").data, 1, none⟩ ⟨true, true, false, true⟩
      rfl rfl rfl rfl).2.1 (("m1").data),
   (C2_ack_failure_skips_markAck_loop_continues smsLine smsMsg
      ⟨("m1").data, ("s").data, ("h").data, 1, none⟩ ⟨true, true, false, true⟩
      rfl rfl rfl rfl).2.2⟩

/-- C3 counterexample: with every validation attempt failing, `establish`
fails (`ProbeFailure`, which makes `maintain_loop` return an error), yet the
process exit code is `0`, refuting the claim that probe exhaustion exits
non-zero. -/
theorem C3_cex_probe_exhaustion_exits_zero :
    establish (("COM1").data) false none [false, false, false] = none ∧
    main_exit_code true true (RunEnd.loopReturned false) = 0 :=
  ⟨rfl, rfl⟩

/-- C3 (amended): the process exits `1` on configuration or database
initialization failure and `0` on clean shutdown; when port validation
exhausts its retries `establish` fails — which is fatal to the main loop —
but `main` only logs the loop's error, so the process still exits `0`, not
non-zero. -/
theorem C3_exit_codes :
    ∀ (configOk dbOk : Bool) (e : RunEnd) (name : List Char) (check : List Bool),
      (configOk = false → main_exit_code configOk dbOk e = 1) ∧
      (configOk = true → dbOk = false → main_exit_code configOk dbOk e = 1) ∧
      (configOk = true → dbOk = true → main_exit_code configOk dbOk e = 0) ∧
      (check.any id = false → establish name false none check = none) := by
  intro configOk dbOk e name check
  refine ⟨?_, ?_, ?_, ?_⟩
  · intro h1
    simp [main_exit_code, h1]
  · intro h1 h2
    simp [main_exit_code, h1, h2]
  · intro h1 h2
    cases e <;> simp [main_exit_code, h1, h2]
  · intro h
    simp [establish, h]

/-- C3 witness: the amended statement at concrete phase outcomes. -/
theorem C3_exit_codes_witness :
    main_exit_code false true (RunEnd.loopReturned false) = 1 ∧
    main_exit_code true false RunEnd.shutdownSignal = 1 ∧
    main_exit_code true true (RunEnd.loopReturned false) = 0 ∧
    establish (("COM1").data) false none [false, false] = none :=
  ⟨(C3_exit_codes false true (RunEnd.loopReturned false) (("COM1").data) []).1 rfl,
   (C3_exit_codes true false RunEnd.shutdownSignal (("COM1").data) []).2.1 rfl rfl,
   (C3_exit_codes true true (RunEnd.loopReturned false) (("COM1").data) []).2.2.1 rfl rfl,
   (C3_exit_codes true true RunEnd.shutdownSignal (("COM1").data) [false, false]).2.2.2 rfl⟩

/-- C4 counterexample: inserting a record whose id `m1` already exists
returns failure (`false`, the surfaced UNIQUE-constraint error of the plain
`INSERT`) rather than a no-op success; the table is unchanged. -/
theorem C4_cex_duplicate_insert_errs :
    insert_sms [rowM1] ⟨("m1").data, ("x").data, ("y").data, 2, ("null").data⟩ 6 =
      (false, [rowM1]) :=
  rfl

/-- C4 (amended): re-insertion of an existing id returns an error (SQLite
UNIQUE-constraint failure of the plain `INSERT`) and leaves the table — in
particular the existing row — unchanged. -/
theorem C4_duplicate_insert_fails_table_unchanged :
    ∀ (table : List SmsRow) (msg : SmsMessage) (t : Int),
      table.any (fun r => r.id = msg.id) = true →
      insert_sms table msg t = (false, table) := by
  intro table msg t h
  simp [insert_sms, h]

/-- C4 witness: the amended statement at a concrete duplicate insert. -/
theorem C4_duplicate_insert_witness :
    insert_sms [rowM1] ⟨("m1").data, ("s2").data, ("h2").data, 2, ("null").data⟩ 7 =
      (false, [rowM1]) :=
  C4_duplicate_insert_fails_table_unchanged [rowM1]
    ⟨("m1").data, ("s2").data, ("h2").data, 2, ("null").data⟩ 7 (by decide)

/-- C6: for every SMS frame processed, within that frame's processing the
store insert precedes the ACK transport write, which precedes the markAck
call (relative order stated as a sublist of the event trace); and if the
insert fails, no ACK write for that frame's id appears in the trace at all. -/
theorem C6_insert_before_ack_before_markAck :
    ∀ (msg : ParsedMessage) (payload : SmsPayload) (o : SmsOutcomes),
      msg.message_type = MessageType.SmsReceived payload →
      (Event.ackWrite msg.id ∈ (process_message msg o).1 →
        List.Sublist [Event.insert (mkSmsMessage payload), Event.ackWrite msg.id]
          (process_message msg o).1) ∧
      (Event.markAck msg.id ∈ (process_message msg o).1 →
        List.Sublist [Event.insert (mkSmsMessage payload), Event.ackWrite msg.id,
          Event.markAck msg.id] (process_message msg o).1) ∧
      (o.insertOk = false → Event.ackWrite msg.id ∉ (process_message msg o).1) := by
  intro msg payload o hm
  obtain ⟨io, no, ao, mo⟩ := o
  cases io
  · refine ⟨?_, ?_, ?_⟩
    · intro hmem
      simp [process_message, hm] at hmem
    · intro hmem
      simp [process_message, hm] at hmem
    · intro _
      simp [process_message, hm]
  · cases ao
    · refine ⟨?_, ?_, ?_⟩
      · intro _
        simp only [process_message, hm, Bool.not_true, Bool.not_false, if_neg, if_pos,
          Bool.false_eq_true, not_false_eq_true, ite_true, ite_false]
        exact List.Sublist.cons₂ _ (List.Sublist.cons _ (List.Sublist.refl _))
      · intro hmem
        simp [process_message, hm] at hmem
      · intro h
        simp at h
    · refine ⟨?_, ?_, ?_⟩
      · intro _
        simp only [process_message, hm, Bool.not_true, Bool.false_eq_true, not_false_eq_true,
          ite_true, ite_false]
        exact List.Sublist.cons₂ _ (List.Sublist.cons _ (List.Sublist.cons₂ _
          (List.Sublist.cons _ (List.Sublist.slnil))))
      · intro _
        simp only [process_message, hm, Bool.not_true, Bool.false_eq_true, not_false_eq_true,
          ite_true, ite_false]
        exact List.Sublist.cons₂ _ (List.Sublist.cons _ (List.Sublist.cons₂ _
          (List.Sublist.cons₂ _ (List.Sublist.refl _))))
      · intro h
        simp at h

/-- C6 witness: the ordering statement at the concrete frame `smsMsg` with
all calls succeeding. -/
theorem C6_insert_before_ack_witness :
    List.Sublist
      [Event.insert (mkSmsMessage ⟨("m1").data, ("s").data, ("h").data, 1, none⟩),
       Event.ackWrite (("m1").data), Event.markAck (("m1").data)]
      (process_message smsMsg ⟨true, true, true, true⟩).1 :=
  (C6_insert_before_ack_before_markAck smsMsg
    ⟨("m1").data, ("s").data, ("h").data, 1, none⟩ ⟨true, true, true, true⟩ rfl).2.1
    (by decide)

/-- C7: an idle read timeout is invisible to the connection: deleting a
timeout tick anywhere in the read sequence leaves the loop's outcome and
event trace unchanged, any number of consecutive timeouts leaves the loop
running with no events, and the connection state (hence the reconnect
counter, which only advances on a loop exit) is unchanged. -/
theorem C7_idle_timeout_is_invisible :
    ∀ (evs1 evs2 : List ReadEvent) (s : ConnectionState) (n : Nat),
      run_loop (evs1 ++ ReadEvent.timeout :: evs2) = run_loop (evs1 ++ evs2) ∧
      run_loop (List.replicate n ReadEvent.timeout) = (none, []) ∧
      state_after_handle s (run_loop (List.replicate n ReadEvent.timeout)).1 = s := by
  intro evs1 evs2 s n
  have h2 : ∀ m, run_loop (List.replicate m ReadEvent.timeout) = (none, []) := by
    intro m
    induction m with
    | zero => rfl
    | succ k ih => simp [List.replicate, run_loop, handle_step, ih]
  refine ⟨?_, h2 n, ?_⟩
  · induction evs1 with
    | nil => simp [run_loop, handle_step]
    | cons e rest ih =>
      simp only [List.cons_append, run_loop]
      rcases h : handle_step e with ⟨oe, tr⟩
      cases oe <;> simp [ih]
  · rw [h2 n]
    rfl

/-- C10: a failing handshake write on entry to `handle_messages` is only
logged: the read loop runs identically (same exit, same trace) whether the
write succeeded or not, and with no read activity the loop is still running
and the connection state is unchanged. -/
theorem C10_handshake_write_error_only_logged :
    ∀ (evs : List ReadEvent),
      handle_messages false evs = handle_messages true evs ∧
      handle_messages false evs = run_loop evs ∧
      (handle_messages false []).1 = none ∧
      state_after_handle ConnectionState.Connected (handle_messages false []).1 =
        ConnectionState.Connected :=
  fun _ => ⟨rfl, rfl, rfl, rfl⟩

/-- The scanner for `[a-zA-Z0-9+/=]*\s*$` accepts exactly the lists that
split into a base64 block followed by whitespace. -/
theorem b64StarWs_iff : ∀ l : List Char, b64StarWs l = true ↔
    ∃ b w, l = b ++ w ∧ (∀ c ∈ b, isB64Char c = true) ∧ (∀ c ∈ w, isWsChar c = true) := by
  intro l
  induction l with
  | nil =>
    simp only [b64StarWs]
    constructor
    · intro _
      exact ⟨[], [], rfl, by simp, by simp⟩
    · intro _
      trivial
  | cons c rest ih =>
    simp only [b64StarWs, Bool.or_eq_true, Bool.and_eq_true]
    constructor
    · rintro (⟨hc, hrest⟩ | ⟨hc, hall⟩)
      · obtain ⟨b, w, heq, hb, hw⟩ := ih.mp hrest
        refine ⟨c :: b, w, by rw [heq, List.cons_append], ?_, hw⟩
        intro x hx
        rcases List.mem_cons.mp hx with h | h
        · rwa [h]
        · exact hb x h
      · refine ⟨[], c :: rest, rfl, by simp, ?_⟩
        intro x hx
        rcases List.mem_cons.mp hx with h | h
        · rwa [h]
        · exact List.all_eq_true.mp hall x h
    · rintro ⟨b, w, heq, hb, hw⟩
      cases b with
      | nil =>
        simp only [List.nil_append] at heq
        subst heq
        right
        refine ⟨hw c (List.mem_cons_self c rest), ?_⟩
        rw [List.all_eq_true]
        intro x hx
        exact hw x (List.mem_cons_of_mem c hx)
      | cons b0 bt =>
        left
        rw [List.cons_append] at heq
        injection heq with h1 h2
        refine ⟨h1 ▸ hb b0 (List.mem_cons_self b0 bt), ?_⟩
        exact ih.mpr ⟨bt, w, h2, fun x hx => hb x (List.mem_cons_of_mem b0 hx), hw⟩

/-- The scanner for `([a-zA-Z0-9+/=]+)\s*$`. -/
theorem b64PlusWs_iff : ∀ l : List Char, b64PlusWs l = true ↔
    ∃ b w, l = b ++ w ∧ b ≠ [] ∧ (∀ c ∈ b, isB64Char c = true) ∧
      (∀ c ∈ w, isWsChar c = true) := by
  intro l
  cases l with
  | nil =>
    simp only [b64PlusWs]
    constructor
    · intro h
      exact absurd h (by simp)
    · rintro ⟨b, w, heq, hbne, -, -⟩
      exact absurd (List.append_eq_nil.mp heq.symm).1 hbne
  | cons c rest =>
    simp only [b64PlusWs, Bool.and_eq_true]
    constructor
    · rintro ⟨hc, hsw⟩
      obtain ⟨b, w, heq, hb, hw⟩ := (b64StarWs_iff rest).mp hsw
      refine ⟨c :: b, w, by rw [heq, List.cons_append], by simp, ?_, hw⟩
      intro x hx
      rcases List.mem_cons.mp hx with h | h
      · rwa [h]
      · exact hb x h
    · rintro ⟨b, w, heq, hbne, hb, hw⟩
      cases b with
      | nil => exact absurd rfl hbne
      | cons b0 bt =>
        rw [List.cons_append] at heq
        injection heq with h1 h2
        exact ⟨h1 ▸ hb b0 (List.mem_cons_self b0 bt),
          (b64StarWs_iff rest).mpr ⟨bt, w, h2,
            fun x hx => hb x (List.mem_cons_of_mem b0 hx), hw⟩⟩

theorem deviceInfoLit_length : deviceInfoLit.length = 13 := by decide

theorem deviceInfoLit_ne_nil : deviceInfoLit ≠ [] := by decide

/-- The group-1 scan of `diMatchAux` finds exactly the decompositions
`group1-tail ++ ":DEVICE_INFO:" ++ (base64 and whitespace)`. -/
theorem diMatchAux_iff : ∀ l : List Char, diMatchAux l = true ↔
    ∃ a t, l = a ++ deviceInfoLit ++ t ∧ (∀ c ∈ a, c ≠ '\n') ∧ b64PlusWs t = true := by
  intro l
  induction l with
  | nil =>
    simp only [diMatchAux]
    constructor
    · intro h
      exact absurd h (by simp)
    · rintro ⟨a, t, heq, -, -⟩
      obtain ⟨h1, -⟩ := List.append_eq_nil.mp heq.symm
      exact absurd (List.append_eq_nil.mp h1).2 deviceInfoLit_ne_nil
  | cons c rest ih =>
    simp only [diMatchAux, Bool.or_eq_true, Bool.and_eq_true, decide_eq_true_eq]
    constructor
    · rintro (⟨htake, hb⟩ | ⟨hc, haux⟩)
      · refine ⟨[], (c :: rest).drop 13, ?_, by simp, hb⟩
        rw [List.nil_append, ← htake, List.take_append_drop]
      · obtain ⟨a, t, heq, ha, hb⟩ := ih.mp haux
        refine ⟨c :: a, t, by rw [heq, List.cons_append, List.cons_append], ?_, hb⟩
        intro x hx
        rcases List.mem_cons.mp hx with h | h
        · rw [h]; exact hc
        · exact ha x h
    · rintro ⟨a, t, heq, ha, hb⟩
      cases a with
      | nil =>
        left
        rw [List.nil_append] at heq
        constructor
        · rw [heq, List.take_left' deviceInfoLit_length]
        · rw [heq, List.drop_left' deviceInfoLit_length]
          exact hb
      | cons a0 at_ =>
        right
        rw [List.cons_append, List.cons_append] at heq
        injection heq with h1 h2
        refine ⟨h1 ▸ ha a0 (List.mem_cons_self a0 at_), ?_⟩
        exact ih.mpr ⟨at_, t, h2, fun x hx => ha x (List.mem_cons_of_mem a0 hx), hb⟩

/-- `diMatch` decides exactly the declarative reading of
`^(.+):DEVICE_INFO:([a-zA-Z0-9+/=]+)\s*$`. -/
theorem diMatch_iff : ∀ l : List Char, diMatch l = true ↔ DeviceInfoRegexMatches l := by
  intro l
  cases l with
  | nil =>
    simp only [diMatch, DeviceInfoRegexMatches]
    constructor
    · intro h
      exact absurd h (by simp)
    · rintro ⟨a, b, w, heq, hane, -, -, -, -⟩
      obtain ⟨h1, -⟩ := List.append_eq_nil.mp heq.symm
      obtain ⟨h3, -⟩ := List.append_eq_nil.mp h1
      exact absurd (List.append_eq_nil.mp h3).1 hane
  | cons c rest =>
    simp only [diMatch, Bool.and_eq_true, decide_eq_true_eq, DeviceInfoRegexMatches]
    constructor
    · rintro ⟨hc, haux⟩
      obtain ⟨a, t, heq, ha, hb⟩ := (diMatchAux_iff rest).mp haux
      obtain ⟨b, w, heqt, hbne, hball, hwall⟩ := (b64PlusWs_iff t).mp hb
      refine ⟨c :: a, b, w, ?_, by simp, ?_, hbne, hball, hwall⟩
      · rw [heq, heqt]
        simp [List.cons_append, List.append_assoc]
      · intro x hx
        rcases List.mem_cons.mp hx with h | h
        · rw [h]; exact hc
        · exact ha x h
    · rintro ⟨a, b, w, heq, hane, ha, hbne, hball, hwall⟩
      cases a with
      | nil => exact absurd rfl hane
      | cons a0 at_ =>
        simp only [List.cons_append, List.append_assoc] at heq
        injection heq with h1 h2
        refine ⟨h1 ▸ ha a0 (List.mem_cons_self a0 at_), ?_⟩
        refine (diMatchAux_iff rest).mpr ⟨at_, b ++ w, ?_, ?_, ?_⟩
        · rw [h2]
          simp [List.append_assoc]
        · exact fun x hx => ha x (List.mem_cons_of_mem a0 hx)
        · exact (b64PlusWs_iff (b ++ w)).mpr ⟨b, w, rfl, hbne, hball, hwall⟩

/-- C8: with the port opened and the handshake written, `check_port` accepts
the line it read back exactly when the line matches
`^(.+):DEVICE_INFO:([a-zA-Z0-9+/=]+)\s*$`; in particular the S1 line
`abc-1:DEVICE_INFO:eyJpbWVpIjoiMSJ9\r\n` is accepted even though its JSON
payload does not parse as a `DeviceInfoPayload` (the probe never parses the
JSON). -/
theorem C8_probe_accepts_iff_regex_matches :
    ∀ (port_name line : List Char),
      (check_port port_name true true (some line) = some port_name ↔
        DeviceInfoRegexMatches line) ∧
      check_port (("p1").data) true true
        (some (("abc-1:DEVICE_INFO:eyJpbWVpIjoiMSJ9\r\n").data)) = some (("p1").data) ∧
      parse_message (("abc-1:DEVICE_INFO:eyJpbWVpIjoiMSJ9").data) = none := by
  intro pn line
  refine ⟨?_, by decide, rfl⟩
  rw [← diMatch_iff]
  simp only [check_port, Bool.not_true, Bool.false_eq_true, if_false, ite_false]
  constructor
  · intro h
    by_cases hd : (line.length > 0 && diMatch line) = true
    · exact (Bool.and_eq_true _ _).mp hd |>.2
    · rw [if_neg] at h
      · exact absurd h (by simp)
      · simpa using hd
  · intro hd
    have hlen : line.length > 0 := by
      cases line with
      | nil => exact absurd hd (by simp [diMatch])
      | cons c rest => simp
    rw [if_pos]
    simp [hlen, hd]

/-- A successful `lazyTwoTail` scan implies the scanned list holds at least
one `':'`. -/
theorem lazyTwoTail_colon_count :
    ∀ (l : List Char) (acc : List Char) (x : List Char × List Char),
      lazyTwoTail acc l = some x → 1 ≤ l.count ':' := by
  intro l
  induction l with
  | nil =>
    intro acc x h
    exact absurd h (by simp [lazyTwoTail])
  | cons c rest ih =>
    intro acc x h
    simp only [lazyTwoTail] at h
    by_cases hnl : c = '\n'
    · rw [if_pos hnl] at h
      exact absurd h (by simp)
    · rw [if_neg hnl] at h
      by_cases hco : c = ':'
      · subst hco
        simp [List.count_cons]
      · rw [if_neg hco] at h
        have := ih (c :: acc) x h
        simp only [List.count_cons]
        omega

/-- A successful frame-regex capture implies at least two `':'` in the
line. -/
theorem reFrameCaptures_colon_count :
    ∀ (l : List Char) (acc : List Char) (x : List Char × List Char × List Char),
      reFrameCaptures acc l = some x → 2 ≤ l.count ':' := by
  intro l
  induction l with
  | nil =>
    intro acc x h
    exact absurd h (by simp [reFrameCaptures])
  | cons c rest ih =>
    intro acc x h
    simp only [reFrameCaptures] at h
    by_cases hnl : c = '\n'
    · rw [if_pos hnl] at h
      exact absurd h (by simp)
    · rw [if_neg hnl] at h
      by_cases hco : c = ':'
      · subst hco
        rw [if_pos rfl] at h
        by_cases hacc : acc.isEmpty
        · rw [if_pos hacc] at h
          have := ih [':'] x h
          have hcc : List.count ':' (':' :: rest) = List.count ':' rest + 1 := by simp
          omega
        · rw [if_neg hacc] at h
          rcases h2 : lazyTwoTail [] rest with - | g
          · rw [h2] at h
            have := ih (':' :: acc) x h
            have hcc : List.count ':' (':' :: rest) = List.count ':' rest + 1 := by simp
            omega
          · rw [h2] at h
            have := lazyTwoTail_colon_count rest [] g h2
            have hcc : List.count ':' (':' :: rest) = List.count ':' rest + 1 := by simp
            omega
      · rw [if_neg hco] at h
        have := ih (c :: acc) x h
        simp only [List.count_cons]
        omega

/-- An unrecognized type token never fails the line: the dispatch yields
`Unknown` without touching the JSON. -/
theorem decodeTyped_unknown :
    ∀ (t s : List Char), recognizedType t = false →
      decodeTyped t s = some (MessageType.Unknown t) := by
  intro t s h
  simp only [recognizedType, decide_eq_false_iff_not, not_or] at h
  obtain ⟨h1, h2, h3, h4⟩ := h
  simp [decodeTyped, h1, h2, h3, h4]

/-- C5 counterexample to the claimed characterization: the line `a:b:` has
two `':'` separators, its (empty) payload base64-decodes to valid UTF-8, and
its type token `b` is unrecognized — by the claim, decode should return a
`ParsedMessage` with kind `Unknown("b")` — yet `parse_message` returns
`none`, because the regex requires a non-empty third segment. -/
theorem C5_cex_empty_payload_returns_none :
    parse_message (("a:b:").data) = none ∧
    (("a:b:").data).count ':' = 2 ∧
    payloadUtf8 [] = some [] ∧
    recognizedType (("b").data) = false :=
  ⟨rfl, by decide, rfl, by decide⟩

/-- C5 (amended): `parse_message` returns `none` exactly when the frame
regex `^(.+?):(.+?):(.+?)[\r\n]*$` fails to match (in particular whenever
the line has fewer than two `':'` separators — but also when a segment is
empty), or the captured payload fails base64 or UTF-8 decoding, or the JSON
fails to parse against the shape of a recognized type; a line whose type
token is unrecognized but whose payload decodes yields `Unknown(token)`,
never `none`. -/
theorem C5_decode_none_characterization :
    ∀ line : List Char,
      (parse_message line = none ↔
        (reFrameCaptures [] line = none ∨
         ∃ i t p, reFrameCaptures [] line = some (i, t, p) ∧
           (payloadUtf8 p = none ∨
            (recognizedType t = true ∧
             ∃ s, payloadUtf8 p = some s ∧ decodeTyped t s = none)))) ∧
      (line.count ':' < 2 → reFrameCaptures [] line = none) ∧
      (∀ i t p s, reFrameCaptures [] line = some (i, t, p) → recognizedType t = false →
        payloadUtf8 p = some s → parse_message line = some ⟨i, MessageType.Unknown t⟩) := by
  intro line
  refine ⟨?_, ?_, ?_⟩
  · rcases h : reFrameCaptures [] line with - | ⟨i, t, p⟩
    · simp [parse_message, h]
    · rcases hp : payloadUtf8 p with - | s
      · constructor
        · intro _
          exact Or.inr ⟨i, t, p, rfl, Or.inl hp⟩
        · intro _
          simp [parse_message, h, hp]
      · rcases hd : decodeTyped t s with - | mt
        · have hrec : recognizedType t = true := by
            by_contra hfalse
            rw [Bool.not_eq_true] at hfalse
            rw [decodeTyped_unknown t s hfalse] at hd
            exact Option.noConfusion hd
          constructor
          · intro _
            exact Or.inr ⟨i, t, p, rfl, Or.inr ⟨hrec, s, hp, hd⟩⟩
          · intro _
            simp [parse_message, h, hp, hd]
        · constructor
          · intro hnone
            exfalso
            simp [parse_message, h, hp, hd] at hnone
          · rintro (hcap | ⟨i2, t2, p2, hsome, hrest⟩)
            · exact Option.noConfusion hcap
            · exfalso
              simp only [Option.some.injEq, Prod.mk.injEq] at hsome
              obtain ⟨-, h2, h3⟩ := hsome
              subst h2
              subst h3
              rcases hrest with hbad | ⟨-, s2, hp2, hd2⟩
              · rw [hp] at hbad
                exact Option.noConfusion hbad
              · rw [hp] at hp2
                injection hp2 with hs
                subst hs
                rw [hd] at hd2
                exact Option.noConfusion hd2
  · intro hcnt
    rcases h : reFrameCaptures [] line with - | x
    · rfl
    · exact absurd (reFrameCaptures_colon_count line [] x h) (by omega)
  · intro i t p s h hrec hp
    have hd := decodeTyped_unknown t s hrec
    simp [parse_message, h, hp, hd]

/-- C5 witness: the S5 line `x:FOO:AA==` decodes to `Unknown("FOO")`. -/
theorem C5_unknown_type_witness :
    parse_message (("x:FOO:AA==").data) =
      some ⟨("x").data, MessageType.Unknown (("FOO").data)⟩ :=
  (C5_decode_none_characterization (("x:FOO:AA==").data)).2.2
    (("x").data) (("FOO").data) (("AA==").data) [Char.ofNat 0] rfl (by decide) rfl

/-- One-step unfolding of `lazyBodyTail` on a cons cell. -/
theorem lazyBodyTail_cons (c : Char) (rest : List Char) :
    lazyBodyTail (c :: rest) =
      if c = '\n' then none
      else if rest.all isCRLFChar then some [c]
      else
        match lazyBodyTail rest with
        | some g => some (c :: g)
        | none => none := rfl

/-- One-step unfolding of `lazyTwoTail` on a cons cell. -/
theorem lazyTwoTail_cons (acc : List Char) (c : Char) (rest : List Char) :
    lazyTwoTail acc (c :: rest) =
      if c = '\n' then none
      else if c = ':' then
        if acc.isEmpty then lazyTwoTail [c] rest
        else
          match lazyBodyTail rest with
          | some g3 => some (acc.reverse, g3)
          | none => lazyTwoTail (c :: acc) rest
      else lazyTwoTail (c :: acc) rest := rfl

/-- One-step unfolding of `reFrameCaptures` on a cons cell. -/
theorem reFrameCaptures_cons (acc : List Char) (c : Char) (rest : List Char) :
    reFrameCaptures acc (c :: rest) =
      if c = '\n' then none
      else if c = ':' then
        if acc.isEmpty then reFrameCaptures [c] rest
        else
          match lazyTwoTail [] rest with
          | some (g2, g3) => some (acc.reverse, g2, g3)
          | none => reFrameCaptures (c :: acc) rest
      else reFrameCaptures (c :: acc) rest := rfl

/-- The lazy third group swallows exactly the payload when the payload has
no CR/LF characters and only CR/LF characters follow it. -/
theorem lazyBodyTail_of_clean :
    ∀ (p tail : List Char), p ≠ [] →
      (∀ c ∈ p, c ≠ '\n' ∧ c ≠ '\r') →
      (∀ c ∈ tail, isCRLFChar c = true) →
      lazyBodyTail (p ++ tail) = some p := by
  intro p
  induction p with
  | nil =>
    intro tail h _ _
    exact absurd rfl h
  | cons c pt ih =>
    intro tail _ hp ht
    have hc := hp c (List.mem_cons_self _ _)
    cases pt with
    | nil =>
      show lazyBodyTail (c :: tail) = some [c]
      have hall : tail.all isCRLFChar = true := List.all_eq_true.mpr (fun x hx => ht x hx)
      rw [lazyBodyTail_cons, if_neg hc.1, if_pos hall]
    | cons d pt2 =>
      show lazyBodyTail (c :: (d :: pt2 ++ tail)) = some (c :: d :: pt2)
      have hd := hp d (List.mem_cons_of_mem c (List.mem_cons_self d pt2))
      have hdf : isCRLFChar d = false := by
        simp [isCRLFChar, hd.1, hd.2]
      have hnotall : (d :: pt2 ++ tail).all isCRLFChar = false := by
        rw [List.cons_append, List.all_cons, hdf]
        exact Bool.false_and _
      have hrec : lazyBodyTail (d :: pt2 ++ tail) = some (d :: pt2) :=
        ih tail (by simp) (fun x hx => hp x (List.mem_cons_of_mem c hx)) ht
      rw [lazyBodyTail_cons, if_neg hc.1, if_neg (by rw [hnotall]; exact Bool.false_ne_true), hrec]

/-- `lazyTwoTail` on `TYPE ++ ":" ++ payload ++ crlf` captures exactly the
type token and the payload, for a colon-free type token. -/
theorem lazyTwoTail_clean :
    ∀ (t acc p tail : List Char),
      (acc ≠ [] ∨ t ≠ []) →
      (∀ c ∈ t, c ≠ ':' ∧ c ≠ '\n') →
      lazyBodyTail (p ++ tail) = some p →
      lazyTwoTail acc (t ++ (':' :: (p ++ tail))) = some (acc.reverse ++ t, p) := by
  intro t
  induction t with
  | nil =>
    intro acc p tail hne _ hbody
    have ha : acc ≠ [] := by
      rcases hne with h | h
      · exact h
      · exact absurd rfl h
    have hia : acc.isEmpty = false := by
      cases acc with
      | nil => exact absurd rfl ha
      | cons y ys => rfl
    show lazyTwoTail acc (':' :: (p ++ tail)) = some (acc.reverse ++ [], p)
    rw [lazyTwoTail_cons, if_neg (by decide : ¬(':' = '\n')), if_pos rfl,
      if_neg (by simp [hia]), hbody]
    simp
  | cons c t2 ih =>
    intro acc p tail hne ht hbody
    have hc := ht c (List.mem_cons_self _ _)
    show lazyTwoTail acc (c :: (t2 ++ (':' :: (p ++ tail)))) = some (acc.reverse ++ c :: t2, p)
    rw [lazyTwoTail_cons, if_neg hc.2, if_neg hc.1,
      ih (c :: acc) p tail (Or.inl (by simp))
        (fun x hx => ht x (List.mem_cons_of_mem c hx)) hbody]
    simp

/-- The frame regex on a well-formed `id:TYPE:payload ++ crlf` line captures
exactly the three segments, for colon-free id and type segments and a
CR/LF-free payload. -/
theorem reFrameCaptures_clean :
    ∀ (idl acc t p tail : List Char),
      (acc ≠ [] ∨ idl ≠ []) →
      (∀ c ∈ idl, c ≠ ':' ∧ c ≠ '\n') →
      t ≠ [] →
      (∀ c ∈ t, c ≠ ':' ∧ c ≠ '\n') →
      lazyBodyTail (p ++ tail) = some p →
      reFrameCaptures acc (idl ++ (':' :: (t ++ (':' :: (p ++ tail))))) =
        some (acc.reverse ++ idl, t, p) := by
  intro idl
  induction idl with
  | nil =>
    intro acc t p tail hne _ ht hta hbody
    have ha : acc ≠ [] := by
      rcases hne with h | h
      · exact h
      · exact absurd rfl h
    have hia : acc.isEmpty = false := by
      cases acc with
      | nil => exact absurd rfl ha
      | cons y ys => rfl
    show reFrameCaptures acc (':' :: (t ++ (':' :: (p ++ tail)))) =
      some (acc.reverse ++ [], t, p)
    rw [reFrameCaptures_cons, if_neg (by decide : ¬(':' = '\n')), if_pos rfl,
      if_neg (by simp [hia]), lazyTwoTail_clean t [] p tail (Or.inr ht) hta hbody]
    simp
  | cons c idt ih =>
    intro acc t p tail hne hid ht hta hbody
    have hc := hid c (List.mem_cons_self _ _)
    show reFrameCaptures acc (c :: (idt ++ (':' :: (t ++ (':' :: (p ++ tail)))))) =
      some (acc.reverse ++ c :: idt, t, p)
    rw [reFrameCaptures_cons, if_neg hc.2, if_neg hc.1,
      ih (c :: acc) t p tail (Or.inl (by simp))
        (fun x hx => hid x (List.mem_cons_of_mem c hx)) ht hta hbody]
    simp

/-- C9: for a well-formed frame `id:TYPE:payload` (non-empty colon-free id
and type, non-empty CR/LF-free payload), appending any run of `'\r'`/`'\n'`
characters — including none — leaves `parse_message`'s result unchanged: the
terminator is stripped by the `[\r\n]*$` tail of the frame regex. -/
theorem C9_trailing_crlf_stripped :
    ∀ (idl t p tail : List Char),
      idl ≠ [] → t ≠ [] → p ≠ [] →
      (∀ c ∈ idl, c ≠ ':' ∧ c ≠ '\n') →
      (∀ c ∈ t, c ≠ ':' ∧ c ≠ '\n') →
      (∀ c ∈ p, c ≠ '\n' ∧ c ≠ '\r') →
      (∀ c ∈ tail, isCRLFChar c = true) →
      parse_message (idl ++ (':' :: (t ++ (':' :: (p ++ tail))))) =
        parse_message (idl ++ (':' :: (t ++ (':' :: p)))) := by
  intro idl t p tail h1 h2 h3 hid hta hp htail
  have hb1 : lazyBodyTail (p ++ tail) = some p := lazyBodyTail_of_clean p tail h3 hp htail
  have hb2 : lazyBodyTail (p ++ []) = some p :=
    lazyBodyTail_of_clean p [] h3 hp (by simp)
  have hc1 := reFrameCaptures_clean idl [] t p tail (Or.inr h1) hid h2 hta hb1
  have hc2 := reFrameCaptures_clean idl [] t p [] (Or.inr h1) hid h2 hta hb2
  rw [List.append_nil] at hc2
  simp only [List.reverse_nil, List.nil_append] at hc1 hc2
  simp only [parse_message]
  rw [hc1, hc2]

/-- C9 witness: `a:b:QQ==` parses the same with and without a `\r\n`
terminator. -/
theorem C9_trailing_crlf_witness :
    parse_message ((("a").data) ++ (':' :: ((("b").data) ++ (':' :: ((("QQ==").data) ++ ['\r', '\n']))))) =
      parse_message ((("a").data) ++ (':' :: ((("b").data) ++ (':' :: (("QQ==").data))))) :=
  C9_trailing_crlf_stripped (("a").data) (("b").data) (("QQ==").data) ['\r', '\n']
    (by decide) (by decide) (by decide) (by decide) (by decide) (by decide) (by decide)

end Claims
